import Mathlib

/-!
Verification of the agentic tool-call loop of an AI CLI assistant.

The development embeds, as executable Lean definitions, the session store
(addTurnToHistory from src/core/session.ts), the two tool-call loop variants
(handleNaturalLanguageInput in src/cli/index.ts and
handleNaturalLanguageWithToolLoop in src/utils/filesystem.ts), and the
read_file tool (src/core/ai/tools.ts). External effects (the model adapter,
the interactive yes/no prompt, tool execution, the filesystem) are modelled
as oracles supplied to the loop.
-/

set_option maxHeartbeats 1000000

/-- Conversation roles, from the ConversationTurn interface in session.ts. -/
inductive Role where
  | user
  | model
  | tool
deriving DecidableEq, Repr

/-- Universal result shape of every tool execution (ToolResult in tools.ts). -/
structure ToolResult where
  success : Bool
  output : Option String
  error : Option String
deriving DecidableEq, Repr

/-- One part of a conversation turn: TextPart, FunctionCallPart or
FunctionResponsePart from session.ts. Function-call arguments are modelled
as a key-value list. -/
inductive TurnPart where
  | text (s : String)
  | functionCall (name : String) (args : List (String × String))
  | functionResponse (name : String) (response : ToolResult)
deriving DecidableEq, Repr

/-- ConversationTurn from session.ts. -/
structure ConversationTurn where
  role : Role
  parts : List TurnPart
deriving DecidableEq, Repr

/-- Role-dependent shape check on the first part of a turn, from the
validation block of addTurnToHistory (session.ts lines 151-153). -/
def partKindOkFor : Role → TurnPart → Bool
  | Role.user, TurnPart.text _ => true
  | Role.model, TurnPart.text _ => true
  | Role.model, TurnPart.functionCall _ _ => true
  | Role.tool, TurnPart.functionResponse _ _ => true
  | _, _ => false

/-- A turn is accepted by addTurnToHistory when its parts list is non-empty
and the first part fits the role (session.ts lines 145-153). -/
def turnOk (turn : ConversationTurn) : Bool :=
  match turn.parts.head? with
  | none => false
  | some p => partKindOkFor turn.role p

/-- The maxHistoryTurns constant of addTurnToHistory (session.ts line 163). -/
def maxHistoryTurns : Nat := 20

/-- history.slice(-maxHistoryTurns) applied when the length bound is
exceeded (session.ts lines 164-166). -/
def trimHistory (h : List ConversationTurn) : List ConversationTurn :=
  if h.length > maxHistoryTurns then h.drop (h.length - maxHistoryTurns) else h

/-- Duplicate suppression test of addTurnToHistory (session.ts lines
155-159): the new turn is skipped when the last stored turn has the same
role and structurally identical parts. -/
def isDuplicateOfLast (history : List ConversationTurn) (turn : ConversationTurn) : Bool :=
  match history.getLast? with
  | some lastTurn => lastTurn.role == turn.role && lastTurn.parts == turn.parts
  | none => false

/-- addTurnToHistory from session.ts: validate, deduplicate against the
immediately preceding turn, push, then trim to the most recent
maxHistoryTurns turns. -/
def addTurnToHistory (history : List ConversationTurn) (turn : ConversationTurn) :
    List ConversationTurn :=
  if turnOk turn then
    if isDuplicateOfLast history turn then history
    else trimHistory (history ++ [turn])
  else history

/-- Turn builders used by both CLI loop variants. -/
def mkUserText (s : String) : ConversationTurn :=
  ConversationTurn.mk Role.user [TurnPart.text s]

def mkModelText (s : String) : ConversationTurn :=
  ConversationTurn.mk Role.model [TurnPart.text s]

def mkModelCall (name : String) (args : List (String × String)) : ConversationTurn :=
  ConversationTurn.mk Role.model [TurnPart.functionCall name args]

def mkToolResp (name : String) (r : ToolResult) : ConversationTurn :=
  ConversationTurn.mk Role.tool [TurnPart.functionResponse name r]

-- ### The tool registry (tools.ts)

/-- Names of the registered tools, the keys of availableTools in tools.ts. -/
def toolNames : List String :=
  ["run_shell_command", "create_directory", "create_file", "read_file",
   "update_file", "delete_file"]

/-- ToolResult appended when the user denies the confirmation prompt
(both loop variants). -/
def cancelledResult : ToolResult :=
  ToolResult.mk false none (some "User cancelled execution.")

/-- ToolResult appended when the model requests a tool name that is not in
the registry (both loop variants). -/
def unknownToolResult (name : String) : ToolResult :=
  ToolResult.mk false none (some ("Unknown tool requested: " ++ name))

/-- MAX_READ_LENGTH from the read_file tool in tools.ts. -/
def MAX_READ_LENGTH : Nat := 5000

/-- The read_file tool from tools.ts. The filesystem is an oracle mapping a
path to the content readFileContent would return, none standing for the
null that readFileContent returns on any read error. The leading guard
embeds the falsy check on args.path. -/
def read_file_run (fsys : String → Option String) (path : String) : ToolResult :=
  if path = "" then
    ToolResult.mk false none (some "Missing \x27path\x27 argument.")
  else
    match fsys path with
    | none =>
        ToolResult.mk false none (some ("Failed to read file or file not found: " ++ path))
    | some content =>
        let truncatedContent :=
          if content.length > MAX_READ_LENGTH
          then content.take MAX_READ_LENGTH ++ "\n... (truncated)"
          else content
        ToolResult.mk true (some truncatedContent) none

-- ### The tool-call loop (index.ts and the loop variant in filesystem.ts)

/-- Structured reply of the model adapter: optional text, optional single
function call (AiToolResponse). -/
structure FunctionCallData where
  name : String
  args : Option (List (String × String))
deriving DecidableEq, Repr

structure AiReply where
  text : Option String
  functionCall : Option FunctionCallData
deriving DecidableEq, Repr

/-- External effects consumed by the loop, indexed by occurrence count:
the adapter generate call (which may throw), the yes/no confirmation
prompt answer, and tool execution (which may throw). -/
structure ToolEnv where
  adapter : Nat → Except String AiReply
  confirm : Nat → Bool
  exec : Nat → Except String ToolResult

/-- Per-variant constants of the two loop implementations. -/
structure LoopParams where
  maxIter : Nat
  risky : List String
  confirmDefault : Bool
  budgetMsg : String

/-- Constants of handleNaturalLanguageInput (index.ts): iteration cap 5,
requiresConfirmation list from line 276, prompt default true (line 284),
budget-exhaustion message from line 340. -/
def indexLoopParams : LoopParams :=
  LoopParams.mk 5 ["run_shell_command", "create_file", "update_file"] true
    "Reached maximum steps for this task. Please start a new request if needed."

/-- Constants of handleNaturalLanguageWithToolLoop (filesystem.ts):
iteration cap 10, requiresConfirmation list from line 368, prompt default
false (line 383), budget-exhaustion message from line 445. -/
def fsLoopParams : LoopParams :=
  LoopParams.mk 10 ["run_shell_command", "update_file", "delete_file"] false
    "It seems this task requires more steps than expected. Please try breaking it down or refine the request."

/-- How one pass through the loop body ended, when it ended the loop. -/
inductive ExitKind where
  | aiError
  | finished
  | cancelled
  | unknownTool
deriving DecidableEq, Repr

/-- Loop-local state: the session history, the iteration counter, counts of
adapter calls, confirmation prompts and tool executions performed so far,
the break reason when the body broke out of the while loop, the list of
every turn passed to addTurnToHistory, and for every confirmation prompt
shown the tool name with the default answer of the prompt. -/
structure LoopState where
  history : List ConversationTurn
  iterations : Nat
  adapterCalls : Nat
  promptIdx : Nat
  execIdx : Nat
  exit : Option ExitKind
  log : List ConversationTurn
  prompts : List (String × Bool)
deriving DecidableEq, Repr

def appendTurn (s : LoopState) (t : ConversationTurn) : LoopState :=
  { s with history := addTurnToHistory s.history t, log := s.log ++ [t] }

/-- Outcome of one tool execution: the value the execute function
returned, or, when it threw, the caught fault converted to success false
with the Tool function threw error message (both variants). -/
def execOutcome (env : ToolEnv) (i : Nat) : ToolResult :=
  match env.exec i with
  | Except.ok r => r
  | Except.error msg =>
      ToolResult.mk false none (some ("Tool function threw error: " ++ msg))

/-- Tool execution of an approved call: run the execute function through
the exec oracle with fault conversion, then append the resulting
ToolOutcome as a tool-result turn (both variants). -/
def runTool (env : ToolEnv) (s : LoopState) (toolName : String) : LoopState :=
  appendTurn { s with execIdx := s.execIdx + 1 }
    (mkToolResp toolName (execOutcome env s.execIdx))

/-- Text handling of the loop body: a non-empty trimmed reply text is
appended as a model text turn, otherwise nothing happens. -/
def applyText (s : LoopState) (txt : Option String) : LoopState :=
  match txt with
  | some t => if t.trim = "" then s else appendTurn s (mkModelText t.trim)
  | none => s

/-- Function-call handling of the loop body: append the model
function-call turn, look the name up in the registry, prompt for
confirmation when the tool is in the risky list, then execute, or append
the cancellation or unknown-tool result and break. -/
def handleCall (p : LoopParams) (env : ToolEnv) (s : LoopState) (fc : FunctionCallData) :
    LoopState :=
  let s2 := appendTurn s (mkModelCall fc.name (fc.args.getD []))
  if toolNames.contains fc.name then
    if p.risky.contains fc.name then
      let answer := env.confirm s2.promptIdx
      let s3 := { s2 with promptIdx := s2.promptIdx + 1,
                          prompts := s2.prompts ++ [(fc.name, p.confirmDefault)] }
      if answer then runTool env s3 fc.name
      else { appendTurn s3 (mkToolResp fc.name cancelledResult) with
               exit := some ExitKind.cancelled }
    else runTool env s2 fc.name
  else
    { appendTurn s2 (mkToolResp fc.name (unknownToolResult fc.name)) with
        exit := some ExitKind.unknownTool }

/-- One pass through the while-loop body of either variant: increment the
iteration counter, call the adapter (an adapter fault appends a model text
turn and breaks), append the reply text if any, then break on a reply with
no function call or dispatch the requested call. -/
def stepBody (p : LoopParams) (env : ToolEnv) (s0 : LoopState) : LoopState :=
  let s := { s0 with iterations := s0.iterations + 1, adapterCalls := s0.adapterCalls + 1 }
  match env.adapter s0.adapterCalls with
  | Except.error msg =>
      { appendTurn s (mkModelText ("Sorry, encountered an AI error: " ++ msg)) with
          exit := some ExitKind.aiError }
  | Except.ok reply =>
      let s1 := applyText s reply.text
      match reply.functionCall with
      | none => { s1 with exit := some ExitKind.finished }
      | some fc => handleCall p env s1 fc

/-- The while loop: iterate the body while iterations is below the cap and
no break occurred; fuel makes the recursion structural. -/
def runLoopFuel (p : LoopParams) (env : ToolEnv) : Nat → LoopState → LoopState
  | 0, s => s
  | Nat.succ fuel, s =>
      if s.exit.isSome then s
      else if s.iterations < p.maxIter then runLoopFuel p env fuel (stepBody p env s)
      else s

/-- Loop entry state: the fresh user request is already in the history,
all counters start at zero. -/
def initLoopState (history0 : List ConversationTurn) : LoopState :=
  LoopState.mk history0 0 0 0 0 none [] []

/-- A full run of either loop variant on one user request: run the while
loop, then append the budget-exhaustion model text turn when the iteration
counter reached the cap (the post-loop check of both variants). -/
def runToolLoop (p : LoopParams) (env : ToolEnv) (history0 : List ConversationTurn) :
    LoopState :=
  if (runLoopFuel p env p.maxIter (initLoopState history0)).iterations ≥ p.maxIter
  then appendTurn (runLoopFuel p env p.maxIter (initLoopState history0))
         (mkModelText p.budgetMsg)
  else runLoopFuel p env p.maxIter (initLoopState history0)

-- ### Concrete oracles used in witnesses and counterexamples

/-- Environment whose model always requests a delete_file call and whose
executions succeed. -/
def envDelete : ToolEnv :=
  ToolEnv.mk
    (fun _ => Except.ok (AiReply.mk none
      (some (FunctionCallData.mk "delete_file" (some [("path", "notes.txt")])))))
    (fun _ => false)
    (fun _ => Except.ok (ToolResult.mk true (some "File deleted successfully: notes.txt") none))

/-- Environment whose model always requests a create_file call. -/
def envCreate : ToolEnv :=
  ToolEnv.mk
    (fun _ => Except.ok (AiReply.mk none
      (some (FunctionCallData.mk "create_file" (some [("path", "notes.txt"), ("content", "hello")])))))
    (fun _ => false)
    (fun _ => Except.ok (ToolResult.mk true (some "File created successfully at notes.txt") none))

/-- Environment whose model always requests a run_shell_command call. -/
def envShell : ToolEnv :=
  ToolEnv.mk
    (fun _ => Except.ok (AiReply.mk none
      (some (FunctionCallData.mk "run_shell_command" (some [("command", "ls")])))))
    (fun _ => true)
    (fun _ => Except.ok (ToolResult.mk true (some "README.md") none))

/-- Environment whose model requests a tool name missing from the registry. -/
def envUnknownTool : ToolEnv :=
  ToolEnv.mk
    (fun _ => Except.ok (AiReply.mk none
      (some (FunctionCallData.mk "make_coffee" (some [])))))
    (fun _ => true)
    (fun _ => Except.ok (ToolResult.mk true none none))

/-- Environment whose tool execution throws on every call. -/
def envThrow : ToolEnv :=
  ToolEnv.mk
    (fun _ => Except.ok (AiReply.mk none
      (some (FunctionCallData.mk "create_directory" (some [("path", "x")])))))
    (fun _ => true)
    (fun _ => Except.error "EACCES: permission denied")

/-- Environment whose model answers four auto-approved create_directory
calls and then requests an unregistered tool, so that the loop of index.ts
takes its abrupt unknown-tool exit exactly on the fifth and last permitted
iteration. -/
def envBudgetAbrupt : ToolEnv :=
  ToolEnv.mk
    (fun i =>
      if i < 4 then
        Except.ok (AiReply.mk none
          (some (FunctionCallData.mk "create_directory" (some [("path", "x")]))))
      else
        Except.ok (AiReply.mk none (some (FunctionCallData.mk "bogus_tool" (some [])))))
    (fun _ => false)
    (fun _ => Except.ok (ToolResult.mk true (some "ok") none))

/-- Environment whose model immediately replies with no text and no
function call, so the loop takes its success exit at once. -/
def envEmptyReply : ToolEnv :=
  ToolEnv.mk
    (fun _ => Except.ok (AiReply.mk none none))
    (fun _ => false)
    (fun _ => Except.ok (ToolResult.mk true none none))

-- ### Substring containment (used to state the unknown-tool message claim)

/-- pat occurs at the start of s (character lists, exact case). -/
def startsWithChars : List Char → List Char → Bool
  | _, [] => true
  | [], _ :: _ => false
  | c :: cs, p :: ps => c == p && startsWithChars cs ps

/-- pat occurs somewhere inside s (character lists, exact case). -/
def hasSubChars : List Char → List Char → Bool
  | [], pat => startsWithChars [] pat
  | c :: cs, pat => startsWithChars (c :: cs) pat || hasSubChars cs pat

/-- Case-sensitive substring test on strings. -/
def strHasSub (s pat : String) : Bool :=
  hasSubChars s.data pat.data

-- ### Lemmas about the session store

lemma getLast?_drop_of_lt {α : Type} (l : List α) (k : Nat) (h : k < l.length) :
    (l.drop k).getLast? = l.getLast? := by
  induction l generalizing k with
  | nil => simp at h
  | cons a l ih =>
    cases k with
    | zero => rfl
    | succ k =>
      have hk : k < l.length := by simpa using h
      rw [List.drop_succ_cons, ih k hk]
      cases l with
      | nil => simp at hk
      | cons b l => simp [List.getLast?_cons_cons]

lemma trimHistory_getLast? (h : List ConversationTurn) :
    (trimHistory h).getLast? = h.getLast? := by
  unfold trimHistory
  split
  · next hlen =>
      have hm : maxHistoryTurns = 20 := rfl
      exact getLast?_drop_of_lt _ _ (by omega)
  · rfl

lemma trimHistory_length (h : List ConversationTurn) :
    (trimHistory h).length = min h.length maxHistoryTurns := by
  unfold trimHistory
  split <;> simp [List.length_drop] <;> omega

lemma addTurnToHistory_length_le (h : List ConversationTurn) (t : ConversationTurn)
    (hlen : h.length ≤ maxHistoryTurns) :
    (addTurnToHistory h t).length ≤ maxHistoryTurns := by
  unfold addTurnToHistory
  split
  · split
    · exact hlen
    · rw [trimHistory_length]; omega
  · exact hlen

lemma foldl_addTurn_length_le (ts : List ConversationTurn) (h : List ConversationTurn)
    (hlen : h.length ≤ maxHistoryTurns) :
    (ts.foldl addTurnToHistory h).length ≤ maxHistoryTurns := by
  induction ts generalizing h with
  | nil => simpa using hlen
  | cons t ts ih => exact ih _ (addTurnToHistory_length_le h t hlen)

lemma addTurn_of_dup (h : List ConversationTurn) (t : ConversationTurn)
    (hdup : isDuplicateOfLast h t = true) : addTurnToHistory h t = h := by
  unfold addTurnToHistory
  split
  · simp [hdup]
  · rfl

lemma addTurn_of_not_dup (h : List ConversationTurn) (t : ConversationTurn)
    (hok : turnOk t = true) (hdup : isDuplicateOfLast h t = false) :
    addTurnToHistory h t = trimHistory (h ++ [t]) := by
  simp [addTurnToHistory, hok, hdup]

lemma addTurn_getLast?_of_not_dup (h : List ConversationTurn) (t : ConversationTurn)
    (hok : turnOk t = true) (hdup : isDuplicateOfLast h t = false) :
    (addTurnToHistory h t).getLast? = some t := by
  rw [addTurn_of_not_dup h t hok hdup, trimHistory_getLast?]
  exact List.getLast?_concat _

lemma addTurn_model_last (h : List ConversationTurn) (t : ConversationTurn)
    (hrole : t.role = Role.model) (hok : turnOk t = true) :
    ∃ u, (addTurnToHistory h t).getLast? = some u ∧ u.role = Role.model := by
  by_cases hdup : isDuplicateOfLast h t = true
  · have hdup0 := hdup
    unfold isDuplicateOfLast at hdup
    cases hl : h.getLast? with
    | none => rw [hl] at hdup; simp at hdup
    | some u =>
        rw [hl] at hdup
        have hu : u.role = t.role := by
          have := (Bool.and_eq_true _ _).mp hdup
          exact beq_iff_eq.mp this.1
        refine ⟨u, ?_, ?_⟩
        · rw [addTurn_of_dup h t hdup0, hl]
        · rw [hu, hrole]
  · have hdup' : isDuplicateOfLast h t = false := by
      cases hd : isDuplicateOfLast h t
      · rfl
      · exact absurd hd hdup
    exact ⟨t, addTurn_getLast?_of_not_dup h t hok hdup', hrole⟩

lemma addTurn_push_of_last_ne_role (h : List ConversationTurn) (t : ConversationTurn)
    (hok : turnOk t = true)
    (hne : ∀ u, h.getLast? = some u → u.role ≠ t.role) :
    (addTurnToHistory h t).getLast? = some t := by
  have hdup : isDuplicateOfLast h t = false := by
    unfold isDuplicateOfLast
    cases hl : h.getLast? with
    | none => rfl
    | some u =>
        have hu := hne u hl
        simp [hu]
  exact addTurn_getLast?_of_not_dup h t hok hdup

-- ### Theorems about the session store (claims C4 and C5)

/-- C4: after every append the session history holds at most 20 turns
(over every sequence of appends starting from the empty history, and as an
invariant of a single append), and an append that would exceed 20 turns
drops the oldest turns so that exactly the most recent 20 remain in their
original order. -/
theorem c4_history_trim_invariant :
    (∀ ts : List ConversationTurn,
        (ts.foldl addTurnToHistory []).length ≤ maxHistoryTurns)
    ∧ (∀ (h : List ConversationTurn) (t : ConversationTurn),
        h.length ≤ maxHistoryTurns → (addTurnToHistory h t).length ≤ maxHistoryTurns)
    ∧ (∀ (h : List ConversationTurn) (t : ConversationTurn),
        h.length = maxHistoryTurns → turnOk t = true → isDuplicateOfLast h t = false →
        addTurnToHistory h t = (h ++ [t]).drop (h.length + 1 - maxHistoryTurns)) := by
  refine ⟨fun ts => foldl_addTurn_length_le ts [] (by simp),
          fun h t => addTurnToHistory_length_le h t, ?_⟩
  intro h t hlen hok hdup
  rw [addTurn_of_not_dup h t hok hdup]
  unfold trimHistory
  have hm : maxHistoryTurns = 20 := rfl
  rw [List.length_append]
  rw [if_pos (by simp; omega)]
  simp

/-- C4 witness: a concrete append onto a full 20-turn history stays within
the bound and keeps exactly the most recent 20 turns. -/
theorem c4_history_trim_invariant_witness :
    (addTurnToHistory (List.replicate 20 (mkUserText "a")) (mkUserText "b")).length
        ≤ maxHistoryTurns
    ∧ addTurnToHistory (List.replicate 20 (mkUserText "a")) (mkUserText "b")
        = ((List.replicate 20 (mkUserText "a")) ++ [mkUserText "b"]).drop
            ((List.replicate 20 (mkUserText "a")).length + 1 - maxHistoryTurns) := by
  constructor
  · exact c4_history_trim_invariant.2.1 _ _ (by simp [maxHistoryTurns])
  · exact c4_history_trim_invariant.2.2 _ _ (by simp [maxHistoryTurns]) (by decide) (by decide)

/-- C5: appending a turn and then immediately appending a structurally
identical turn of the same role stores the turn only once: the second
append leaves the history unchanged. -/
theorem c5_duplicate_suppression_idempotent (h : List ConversationTurn)
    (t : ConversationTurn) :
    addTurnToHistory (addTurnToHistory h t) t = addTurnToHistory h t := by
  by_cases hok : turnOk t = true
  · by_cases hdup : isDuplicateOfLast h t = true
    · rw [addTurn_of_dup h t hdup, addTurn_of_dup h t hdup]
    · have hdup' : isDuplicateOfLast h t = false := by
        cases hd : isDuplicateOfLast h t
        · rfl
        · exact absurd hd hdup
      have hlast := addTurn_getLast?_of_not_dup h t hok hdup'
      have hdup2 : isDuplicateOfLast (addTurnToHistory h t) t = true := by
        unfold isDuplicateOfLast
        rw [hlast]
        simp
      exact addTurn_of_dup _ t hdup2
  · have hok' : turnOk t = false := by
      cases ho : turnOk t
      · rfl
      · exact absurd ho hok
    simp [addTurnToHistory, hok']

-- ### Lemmas about the tool-call loop

lemma appendTurn_fields (s : LoopState) (t : ConversationTurn) :
    (appendTurn s t).iterations = s.iterations ∧
    (appendTurn s t).adapterCalls = s.adapterCalls ∧
    (appendTurn s t).promptIdx = s.promptIdx ∧
    (appendTurn s t).execIdx = s.execIdx ∧
    (appendTurn s t).exit = s.exit ∧
    (appendTurn s t).prompts = s.prompts ∧
    (appendTurn s t).log = s.log ++ [t] :=
  ⟨rfl, rfl, rfl, rfl, rfl, rfl, rfl⟩

lemma applyText_fields (s : LoopState) (txt : Option String) :
    (applyText s txt).iterations = s.iterations ∧
    (applyText s txt).adapterCalls = s.adapterCalls ∧
    (applyText s txt).promptIdx = s.promptIdx ∧
    (applyText s txt).execIdx = s.execIdx ∧
    (applyText s txt).exit = s.exit ∧
    (applyText s txt).prompts = s.prompts := by
  unfold applyText
  cases txt with
  | none => exact ⟨rfl, rfl, rfl, rfl, rfl, rfl⟩
  | some t =>
      by_cases h : t.trim = "" <;> simp [h, appendTurn]

lemma applyText_log (s : LoopState) (txt : Option String) :
    ∃ mid : List ConversationTurn,
      (applyText s txt).log = s.log ++ mid ∧ ∀ u ∈ mid, u.role = Role.model := by
  unfold applyText
  cases txt with
  | none => exact ⟨[], by simp, by simp⟩
  | some t =>
      by_cases h : t.trim = ""
      · exact ⟨[], by simp [h], by simp⟩
      · refine ⟨[mkModelText t.trim], ?_, ?_⟩
        · simp [h, appendTurn]
        · intro u hu
          simp at hu
          rw [hu]
          rfl

lemma handleCall_counts (p : LoopParams) (env : ToolEnv) (s : LoopState)
    (fc : FunctionCallData) :
    (handleCall p env s fc).iterations = s.iterations ∧
    (handleCall p env s fc).adapterCalls = s.adapterCalls := by
  by_cases h1 : fc.name ∈ toolNames
  · by_cases h2 : fc.name ∈ p.risky
    · cases h3 : env.confirm s.promptIdx <;>
        simp [handleCall, h1, h2, h3, runTool, appendTurn]
    · simp [handleCall, h1, h2, runTool, appendTurn]
  · simp [handleCall, h1, appendTurn]

lemma stepBody_counts (p : LoopParams) (env : ToolEnv) (s : LoopState) :
    (stepBody p env s).iterations = s.iterations + 1 ∧
    (stepBody p env s).adapterCalls = s.adapterCalls + 1 := by
  unfold stepBody
  cases ha : env.adapter s.adapterCalls with
  | error msg => simp [appendTurn]
  | ok reply =>
      have hf := applyText_fields
        { s with iterations := s.iterations + 1, adapterCalls := s.adapterCalls + 1 }
        reply.text
      cases hfc : reply.functionCall with
      | none =>
          simp only [hfc]
          exact ⟨hf.1, hf.2.1⟩
      | some fc =>
          have hc := handleCall_counts p env
            (applyText
              { s with iterations := s.iterations + 1, adapterCalls := s.adapterCalls + 1 }
              reply.text) fc
          simp only [hfc]
          exact ⟨by rw [hc.1, hf.1], by rw [hc.2, hf.2.1]⟩

lemma runLoopFuel_of_exit (p : LoopParams) (env : ToolEnv) (fuel : Nat) (s : LoopState)
    (h : s.exit.isSome) : runLoopFuel p env fuel s = s := by
  cases fuel with
  | zero => rfl
  | succ f => simp [runLoopFuel, h]

lemma runLoopFuel_adapterCalls_le (p : LoopParams) (env : ToolEnv) :
    ∀ (fuel : Nat) (s : LoopState),
      (runLoopFuel p env fuel s).adapterCalls ≤ s.adapterCalls + fuel := by
  intro fuel
  induction fuel with
  | zero => intro s; simp [runLoopFuel]
  | succ f ih =>
      intro s
      unfold runLoopFuel
      split
      · omega
      · split
        · have h1 := ih (stepBody p env s)
          have h2 := (stepBody_counts p env s).2
          omega
        · omega

lemma runLoopFuel_iterations_le (p : LoopParams) (env : ToolEnv) :
    ∀ (fuel : Nat) (s : LoopState), s.iterations ≤ p.maxIter →
      (runLoopFuel p env fuel s).iterations ≤ p.maxIter := by
  intro fuel
  induction fuel with
  | zero => intro s h; simpa [runLoopFuel] using h
  | succ f ih =>
      intro s h
      unfold runLoopFuel
      split
      · exact h
      · split
        · next hiter =>
            have h1 := (stepBody_counts p env s).1
            exact ih _ (by omega)
        · exact h

-- ### Theorems about the loop budget (claims C3 and C9)

/-- C3: for every single user request, over all adapter replies,
confirmation answers and tool outcomes, either loop variant makes at most
MAX_TOOL_ITERATIONS adapter generate calls; the cap is the per-variant
constant 5 in handleNaturalLanguageInput and 10 in
handleNaturalLanguageWithToolLoop, both within the range 5 to 10. -/
theorem c3_adapter_call_budget (env : ToolEnv) (history0 : List ConversationTurn) :
    (runToolLoop indexLoopParams env history0).adapterCalls ≤ indexLoopParams.maxIter
    ∧ (runToolLoop fsLoopParams env history0).adapterCalls ≤ fsLoopParams.maxIter
    ∧ indexLoopParams.maxIter = 5 ∧ fsLoopParams.maxIter = 10
    ∧ 5 ≤ indexLoopParams.maxIter ∧ indexLoopParams.maxIter ≤ 10
    ∧ 5 ≤ fsLoopParams.maxIter ∧ fsLoopParams.maxIter ≤ 10 := by
  have key : ∀ p : LoopParams, (runToolLoop p env history0).adapterCalls ≤ p.maxIter := by
    intro p
    have h := runLoopFuel_adapterCalls_le p env p.maxIter (initLoopState history0)
    simp [initLoopState] at h
    unfold runToolLoop
    split
    · simpa [appendTurn] using h
    · exact h
  exact ⟨key indexLoopParams, key fsLoopParams, rfl, rfl,
    by decide, by decide, by decide, by decide⟩

/-- C9 (amended): the budget-exhaustion model text turn is appended
exactly when the final iteration counter equals MAX_TOOL_ITERATIONS,
regardless of how the last iteration ended: a success or abrupt exit taken
on the final permitted iteration also receives the message, and a loop
that stops before using all iterations never does. -/
theorem c9_budget_message (p : LoopParams) (env : ToolEnv)
    (history0 : List ConversationTurn) :
    (runToolLoop p env history0).log
      = (runLoopFuel p env p.maxIter (initLoopState history0)).log
        ++ (if (runLoopFuel p env p.maxIter (initLoopState history0)).iterations = p.maxIter
            then [mkModelText p.budgetMsg] else [])
    ∧ ((runLoopFuel p env p.maxIter (initLoopState history0)).iterations < p.maxIter →
        runToolLoop p env history0
          = runLoopFuel p env p.maxIter (initLoopState history0)) := by
  have hle : (runLoopFuel p env p.maxIter (initLoopState history0)).iterations ≤ p.maxIter :=
    runLoopFuel_iterations_le p env p.maxIter _ (by simp [initLoopState])
  constructor
  · unfold runToolLoop
    split
    · next hge => rw [if_pos (by omega)]; simp [appendTurn]
    · next hlt => rw [if_neg (by omega)]; simp
  · intro hlt
    unfold runToolLoop
    rw [if_neg (by omega)]

/-- C9 witness: with a model that immediately produces a reply with no
function call, the loop of filesystem.ts stops after one iteration and the
budget-exhaustion turn is not appended. -/
theorem c9_budget_message_witness :
    runToolLoop fsLoopParams envEmptyReply [mkUserText "hi"]
      = runLoopFuel fsLoopParams envEmptyReply fsLoopParams.maxIter
          (initLoopState [mkUserText "hi"]) :=
  (c9_budget_message fsLoopParams envEmptyReply [mkUserText "hi"]).2 (by decide)

/-- C9 counterexample: with the index.ts loop and a model whose fifth and
final permitted iteration requests an unregistered tool, the loop exits
abruptly through the unknown-tool branch and the budget-exhaustion turn is
appended anyway, so the message is not reserved for the pure budget
exit. -/
theorem c9_budget_message_counterexample :
    (runToolLoop indexLoopParams envBudgetAbrupt [mkUserText "make dirs"]).exit
        = some ExitKind.unknownTool
    ∧ (runToolLoop indexLoopParams envBudgetAbrupt [mkUserText "make dirs"]).log.getLast?
        = some (mkModelText indexLoopParams.budgetMsg) := by
  constructor
  · decide
  · decide

-- ### Path lemmas for one pass of the loop body

lemma stepBody_call (p : LoopParams) (env : ToolEnv) (s : LoopState)
    (reply : AiReply) (fc : FunctionCallData)
    (hadapt : env.adapter s.adapterCalls = Except.ok reply)
    (hfc : reply.functionCall = some fc) :
    stepBody p env s
      = handleCall p env
          (applyText
            { s with iterations := s.iterations + 1, adapterCalls := s.adapterCalls + 1 }
            reply.text) fc := by
  simp only [stepBody, hadapt, hfc]

lemma handleCall_deny_spec (p : LoopParams) (env : ToolEnv) (s1 : LoopState)
    (fc : FunctionCallData)
    (hknown : fc.name ∈ toolNames) (hrisky : fc.name ∈ p.risky)
    (hdeny : env.confirm s1.promptIdx = false) :
    (handleCall p env s1 fc).exit = some ExitKind.cancelled
    ∧ (handleCall p env s1 fc).log
        = s1.log ++ [mkModelCall fc.name (fc.args.getD []),
            mkToolResp fc.name cancelledResult]
    ∧ (handleCall p env s1 fc).execIdx = s1.execIdx
    ∧ (handleCall p env s1 fc).adapterCalls = s1.adapterCalls
    ∧ (handleCall p env s1 fc).iterations = s1.iterations
    ∧ (handleCall p env s1 fc).prompts = s1.prompts ++ [(fc.name, p.confirmDefault)]
    ∧ (handleCall p env s1 fc).history
        = addTurnToHistory
            (addTurnToHistory s1.history (mkModelCall fc.name (fc.args.getD [])))
            (mkToolResp fc.name cancelledResult) := by
  simp [handleCall, hknown, hrisky, hdeny, appendTurn]

lemma handleCall_unknown_spec (p : LoopParams) (env : ToolEnv) (s1 : LoopState)
    (fc : FunctionCallData) (hunk : fc.name ∉ toolNames) :
    (handleCall p env s1 fc).exit = some ExitKind.unknownTool
    ∧ (handleCall p env s1 fc).log
        = s1.log ++ [mkModelCall fc.name (fc.args.getD []),
            mkToolResp fc.name (unknownToolResult fc.name)]
    ∧ (handleCall p env s1 fc).execIdx = s1.execIdx
    ∧ (handleCall p env s1 fc).promptIdx = s1.promptIdx
    ∧ (handleCall p env s1 fc).adapterCalls = s1.adapterCalls
    ∧ (handleCall p env s1 fc).history
        = addTurnToHistory
            (addTurnToHistory s1.history (mkModelCall fc.name (fc.args.getD [])))
            (mkToolResp fc.name (unknownToolResult fc.name)) := by
  simp [handleCall, hunk, appendTurn]

lemma handleCall_exec_spec (p : LoopParams) (env : ToolEnv) (s1 : LoopState)
    (fc : FunctionCallData)
    (hknown : fc.name ∈ toolNames)
    (happr : fc.name ∉ p.risky ∨ env.confirm s1.promptIdx = true) :
    (handleCall p env s1 fc).exit = s1.exit
    ∧ (handleCall p env s1 fc).log
        = s1.log ++ [mkModelCall fc.name (fc.args.getD []),
            mkToolResp fc.name (execOutcome env s1.execIdx)]
    ∧ (handleCall p env s1 fc).execIdx = s1.execIdx + 1 := by
  rcases happr with h2 | h2
  · simp [handleCall, hknown, h2, runTool, appendTurn]
  · by_cases hr : fc.name ∈ p.risky
    · simp [handleCall, hknown, hr, h2, runTool, appendTurn]
    · simp [handleCall, hknown, hr, runTool, appendTurn]

lemma handleCall_prompt_spec (p : LoopParams) (env : ToolEnv) (s1 : LoopState)
    (fc : FunctionCallData) (hknown : fc.name ∈ toolNames) :
    (handleCall p env s1 fc).prompts
        = s1.prompts ++ (if fc.name ∈ p.risky then [(fc.name, p.confirmDefault)] else [])
    ∧ (fc.name ∉ p.risky → (handleCall p env s1 fc).execIdx = s1.execIdx + 1) := by
  by_cases h2 : fc.name ∈ p.risky
  · cases h3 : env.confirm s1.promptIdx <;>
      simp [handleCall, hknown, h2, h3, runTool, appendTurn]
  · simp [handleCall, hknown, h2, runTool, appendTurn]

-- ### Substring lemmas

lemma startsWithChars_append (pat rest : List Char) :
    startsWithChars (pat ++ rest) pat = true := by
  induction pat with
  | nil => cases rest with
    | nil => rfl
    | cons a as => rfl
  | cons c cs ih => simp [startsWithChars, ih]

lemma hasSubChars_of_startsWith (s pat : List Char) (h : startsWithChars s pat = true) :
    hasSubChars s pat = true := by
  cases s with
  | nil => simpa [hasSubChars] using h
  | cons c cs => simp [hasSubChars, h]

lemma strHasSub_unknown_msg (name : String) :
    strHasSub ("Unknown tool requested: " ++ name) "Unknown tool" = true := by
  unfold strHasSub
  have h1 : ("Unknown tool requested: " ++ name).data
      = ("Unknown tool").data ++ ((" requested: ").data ++ name.data) := by
    have h2 : ("Unknown tool requested: " ++ name).data
        = ("Unknown tool requested: ").data ++ name.data := rfl
    have h3 : ("Unknown tool requested: ").data
        = ("Unknown tool").data ++ (" requested: ").data := by decide
    rw [h2, h3, List.append_assoc]
  rw [h1]
  exact hasSubChars_of_startsWith _ _ (startsWithChars_append _ _)

-- ### Theorems about the confirmation gate (claims C1 and C2)

/-- C1 (amended): when the model requests a registered tool, the loop
prompts for confirmation exactly when the tool name is in the risky list
of the running variant, and otherwise auto-approves and executes with no
prompt; the risky list of handleNaturalLanguageWithToolLoop is
run_shell_command, update_file, delete_file (so delete_file prompts and
create_file, create_directory, read_file are auto-approved), while the
risky list of handleNaturalLanguageInput is run_shell_command,
create_file, update_file (so there create_file prompts and delete_file
is auto-approved). -/
theorem c1_risky_classification (p : LoopParams) (env : ToolEnv) (s : LoopState)
    (reply : AiReply) (fc : FunctionCallData)
    (hadapt : env.adapter s.adapterCalls = Except.ok reply)
    (hfc : reply.functionCall = some fc)
    (hknown : fc.name ∈ toolNames) :
    ((stepBody p env s).prompts
        = s.prompts ++ (if fc.name ∈ p.risky then [(fc.name, p.confirmDefault)] else []))
    ∧ (fc.name ∉ p.risky → (stepBody p env s).execIdx = s.execIdx + 1)
    ∧ indexLoopParams.risky = ["run_shell_command", "create_file", "update_file"]
    ∧ fsLoopParams.risky = ["run_shell_command", "update_file", "delete_file"]
    ∧ "delete_file" ∈ fsLoopParams.risky
    ∧ "create_file" ∉ fsLoopParams.risky
    ∧ "create_directory" ∉ fsLoopParams.risky
    ∧ "read_file" ∉ fsLoopParams.risky
    ∧ "delete_file" ∉ indexLoopParams.risky
    ∧ "create_file" ∈ indexLoopParams.risky := by
  have hstep := stepBody_call p env s reply fc hadapt hfc
  have hf := applyText_fields
    { s with iterations := s.iterations + 1, adapterCalls := s.adapterCalls + 1 }
    reply.text
  have hpr : (applyText
      { s with iterations := s.iterations + 1, adapterCalls := s.adapterCalls + 1 }
      reply.text).prompts = s.prompts := hf.2.2.2.2.2
  have hei : (applyText
      { s with iterations := s.iterations + 1, adapterCalls := s.adapterCalls + 1 }
      reply.text).execIdx = s.execIdx := hf.2.2.2.1
  have hspec := handleCall_prompt_spec p env
    (applyText
      { s with iterations := s.iterations + 1, adapterCalls := s.adapterCalls + 1 }
      reply.text) fc hknown
  refine ⟨?_, ?_, rfl, rfl, by decide, by decide, by decide, by decide, by decide, by decide⟩
  · rw [hstep, hspec.1, hpr]
  · intro hnr
    rw [hstep, hspec.2 hnr, hei]

/-- C1 witness: in the filesystem.ts loop a delete_file request does raise
a confirmation prompt. -/
theorem c1_risky_classification_witness :
    (stepBody fsLoopParams envDelete (initLoopState [mkUserText "delete notes.txt"])).prompts
        = [("delete_file", fsLoopParams.confirmDefault)]
    ∧ "delete_file" ∈ fsLoopParams.risky := by
  have h := c1_risky_classification fsLoopParams envDelete
      (initLoopState [mkUserText "delete notes.txt"])
      (AiReply.mk none (some (FunctionCallData.mk "delete_file" (some [("path", "notes.txt")]))))
      (FunctionCallData.mk "delete_file" (some [("path", "notes.txt")]))
      rfl rfl (by decide)
  refine ⟨?_, by decide⟩
  rw [h.1]
  simp [fsLoopParams, initLoopState]

/-- C1 counterexample: in the index.ts loop a delete_file request is
auto-approved and executed with no confirmation prompt, and a create_file
request does prompt, so the claimed risky set does not hold for that
variant. -/
theorem c1_risky_classification_counterexample :
    (stepBody indexLoopParams envDelete (initLoopState [mkUserText "delete notes.txt"])).prompts
        = []
    ∧ (stepBody indexLoopParams envDelete (initLoopState [mkUserText "delete notes.txt"])).execIdx
        = 1
    ∧ (stepBody indexLoopParams envCreate (initLoopState [mkUserText "create notes.txt"])).prompts
        = [("create_file", true)] := by
  exact ⟨by decide, by decide, by decide⟩

/-- C2 (amended): every confirmation prompt of a loop variant carries the
per-variant default answer: deny (false) in handleNaturalLanguageWithToolLoop
and approve (true) in handleNaturalLanguageInput. -/
theorem c2_prompt_default (p : LoopParams) (env : ToolEnv) (s : LoopState)
    (reply : AiReply) (fc : FunctionCallData)
    (hadapt : env.adapter s.adapterCalls = Except.ok reply)
    (hfc : reply.functionCall = some fc)
    (hknown : fc.name ∈ toolNames)
    (hrisky : fc.name ∈ p.risky) :
    (stepBody p env s).prompts = s.prompts ++ [(fc.name, p.confirmDefault)]
    ∧ fsLoopParams.confirmDefault = false
    ∧ indexLoopParams.confirmDefault = true := by
  have hstep := stepBody_call p env s reply fc hadapt hfc
  have hf := applyText_fields
    { s with iterations := s.iterations + 1, adapterCalls := s.adapterCalls + 1 }
    reply.text
  have hpr : (applyText
      { s with iterations := s.iterations + 1, adapterCalls := s.adapterCalls + 1 }
      reply.text).prompts = s.prompts := hf.2.2.2.2.2
  have hspec := handleCall_prompt_spec p env
    (applyText
      { s with iterations := s.iterations + 1, adapterCalls := s.adapterCalls + 1 }
      reply.text) fc hknown
  refine ⟨?_, rfl, rfl⟩
  rw [hstep, hspec.1, hpr, if_pos hrisky]

/-- C2 witness: in the filesystem.ts loop a run_shell_command request
prompts with default deny. -/
theorem c2_prompt_default_witness :
    (stepBody fsLoopParams envShell (initLoopState [mkUserText "run ls"])).prompts
        = [("run_shell_command", false)] := by
  have h := c2_prompt_default fsLoopParams envShell
      (initLoopState [mkUserText "run ls"])
      (AiReply.mk none (some (FunctionCallData.mk "run_shell_command" (some [("command", "ls")]))))
      (FunctionCallData.mk "run_shell_command" (some [("command", "ls")]))
      rfl rfl (by decide) (by decide)
  rw [h.1]
  simp [fsLoopParams, initLoopState]

/-- C2 counterexample: in the index.ts loop the confirmation prompt for a
risky run_shell_command call carries default true (approve), not deny. -/
theorem c2_prompt_default_counterexample :
    (stepBody indexLoopParams envShell (initLoopState [mkUserText "run ls"])).prompts
        = [("run_shell_command", true)] := by
  decide

-- ### Theorems about the loop exits (claims C6, C7, C8)

/-- C6: when the user denies the confirmation prompt of a risky tool call,
exactly one tool-result turn carrying success false and the error message
User cancelled execution. is appended (every other turn appended in that
pass has the model role), the tool is not executed, the body breaks out of
the loop with the cancellation exit, and no further adapter call happens
for the request. -/
theorem c6_user_denial (p : LoopParams) (env : ToolEnv) (s : LoopState)
    (reply : AiReply) (fc : FunctionCallData)
    (hexit : s.exit = none) (hiter : s.iterations < p.maxIter)
    (hadapt : env.adapter s.adapterCalls = Except.ok reply)
    (hfc : reply.functionCall = some fc)
    (hknown : fc.name ∈ toolNames) (hrisky : fc.name ∈ p.risky)
    (hdeny : env.confirm s.promptIdx = false) :
    (stepBody p env s).exit = some ExitKind.cancelled
    ∧ (∃ mid : List ConversationTurn,
        (stepBody p env s).log
          = s.log ++ mid ++ [mkToolResp fc.name cancelledResult]
        ∧ ∀ u ∈ mid, u.role = Role.model)
    ∧ cancelledResult.success = false
    ∧ cancelledResult.error = some "User cancelled execution."
    ∧ (stepBody p env s).execIdx = s.execIdx
    ∧ (stepBody p env s).history.getLast? = some (mkToolResp fc.name cancelledResult)
    ∧ (stepBody p env s).adapterCalls = s.adapterCalls + 1
    ∧ ∀ fuel, runLoopFuel p env fuel (stepBody p env s) = stepBody p env s := by
  have hstep := stepBody_call p env s reply fc hadapt hfc
  have hf := applyText_fields
    { s with iterations := s.iterations + 1, adapterCalls := s.adapterCalls + 1 }
    reply.text
  have hp : (applyText
      { s with iterations := s.iterations + 1, adapterCalls := s.adapterCalls + 1 }
      reply.text).promptIdx = s.promptIdx := hf.2.2.1
  have hei : (applyText
      { s with iterations := s.iterations + 1, adapterCalls := s.adapterCalls + 1 }
      reply.text).execIdx = s.execIdx := hf.2.2.2.1
  have hac : (applyText
      { s with iterations := s.iterations + 1, adapterCalls := s.adapterCalls + 1 }
      reply.text).adapterCalls = s.adapterCalls + 1 := hf.2.1
  obtain ⟨mid0, hm0, hr0⟩ := applyText_log
    { s with iterations := s.iterations + 1, adapterCalls := s.adapterCalls + 1 }
    reply.text
  have hm0' : (applyText
      { s with iterations := s.iterations + 1, adapterCalls := s.adapterCalls + 1 }
      reply.text).log = s.log ++ mid0 := hm0
  have hdeny1 : env.confirm (applyText
      { s with iterations := s.iterations + 1, adapterCalls := s.adapterCalls + 1 }
      reply.text).promptIdx = false := by rw [hp]; exact hdeny
  have hspec := handleCall_deny_spec p env
    (applyText
      { s with iterations := s.iterations + 1, adapterCalls := s.adapterCalls + 1 }
      reply.text) fc hknown hrisky hdeny1
  have hlastmodel := addTurn_model_last
    (applyText
      { s with iterations := s.iterations + 1, adapterCalls := s.adapterCalls + 1 }
      reply.text).history
    (mkModelCall fc.name (fc.args.getD [])) rfl rfl
  obtain ⟨v, hv, hvr⟩ := hlastmodel
  have hlast := addTurn_push_of_last_ne_role
    (addTurnToHistory
      (applyText
        { s with iterations := s.iterations + 1, adapterCalls := s.adapterCalls + 1 }
        reply.text).history
      (mkModelCall fc.name (fc.args.getD [])))
    (mkToolResp fc.name cancelledResult) rfl ?hne
  case hne =>
    intro u hu
    rw [hv] at hu
    injection hu with huv
    rw [← huv, hvr]
    intro hcontra
    simp [mkToolResp] at hcontra
  rw [hstep]
  refine ⟨hspec.1,
    ⟨mid0 ++ [mkModelCall fc.name (fc.args.getD [])], ?_, ?_⟩,
    rfl, rfl, ?_, ?_, ?_, ?_⟩
  · rw [hspec.2.1, hm0']
    simp
  · intro u hu
    rcases List.mem_append.mp hu with h | h
    · exact hr0 u h
    · simp at h
      rw [h]
      rfl
  · rw [hspec.2.2.1, hei]
  · rw [hspec.2.2.2.2.2.2, hlast]
  · rw [hspec.2.2.2.1, hac]
  · intro fuel
    apply runLoopFuel_of_exit
    rw [hspec.1]
    rfl

/-- C6 witness: a denied delete_file confirmation in the filesystem.ts
loop cancels with no execution, ends the run, and the cancellation turn is
the last history entry. -/
theorem c6_user_denial_witness :
    (stepBody fsLoopParams envDelete (initLoopState [mkUserText "delete notes.txt"])).exit
        = some ExitKind.cancelled
    ∧ (stepBody fsLoopParams envDelete (initLoopState [mkUserText "delete notes.txt"])).execIdx
        = 0
    ∧ (stepBody fsLoopParams envDelete
          (initLoopState [mkUserText "delete notes.txt"])).history.getLast?
        = some (mkToolResp "delete_file" cancelledResult)
    ∧ runLoopFuel fsLoopParams envDelete 9
          (stepBody fsLoopParams envDelete (initLoopState [mkUserText "delete notes.txt"]))
        = stepBody fsLoopParams envDelete (initLoopState [mkUserText "delete notes.txt"]) := by
  have h := c6_user_denial fsLoopParams envDelete
      (initLoopState [mkUserText "delete notes.txt"])
      (AiReply.mk none (some (FunctionCallData.mk "delete_file" (some [("path", "notes.txt")]))))
      (FunctionCallData.mk "delete_file" (some [("path", "notes.txt")]))
      rfl (by decide) rfl rfl (by decide) (by decide) rfl
  exact ⟨h.1, h.2.2.2.2.1, h.2.2.2.2.2.1, h.2.2.2.2.2.2.2 9⟩

/-- C7 (amended): when the model requests a tool name that is not in the
registry, exactly one tool-result turn is appended carrying success false
and an error message containing Unknown tool (capital U, the literal text
being Unknown tool requested: followed by the name), nothing is executed
and no prompt is shown, the body breaks out of the loop, and no further
adapter call happens for the request. -/
theorem c7_unknown_tool (p : LoopParams) (env : ToolEnv) (s : LoopState)
    (reply : AiReply) (fc : FunctionCallData)
    (hexit : s.exit = none) (hiter : s.iterations < p.maxIter)
    (hadapt : env.adapter s.adapterCalls = Except.ok reply)
    (hfc : reply.functionCall = some fc)
    (hunk : fc.name ∉ toolNames) :
    (stepBody p env s).exit = some ExitKind.unknownTool
    ∧ (∃ mid : List ConversationTurn,
        (stepBody p env s).log
          = s.log ++ mid ++ [mkToolResp fc.name (unknownToolResult fc.name)]
        ∧ ∀ u ∈ mid, u.role = Role.model)
    ∧ (unknownToolResult fc.name).success = false
    ∧ (unknownToolResult fc.name).error
        = some ("Unknown tool requested: " ++ fc.name)
    ∧ strHasSub ("Unknown tool requested: " ++ fc.name) "Unknown tool" = true
    ∧ (stepBody p env s).execIdx = s.execIdx
    ∧ (stepBody p env s).promptIdx = s.promptIdx
    ∧ (stepBody p env s).adapterCalls = s.adapterCalls + 1
    ∧ ∀ fuel, runLoopFuel p env fuel (stepBody p env s) = stepBody p env s := by
  have hstep := stepBody_call p env s reply fc hadapt hfc
  have hf := applyText_fields
    { s with iterations := s.iterations + 1, adapterCalls := s.adapterCalls + 1 }
    reply.text
  have hp : (applyText
      { s with iterations := s.iterations + 1, adapterCalls := s.adapterCalls + 1 }
      reply.text).promptIdx = s.promptIdx := hf.2.2.1
  have hei : (applyText
      { s with iterations := s.iterations + 1, adapterCalls := s.adapterCalls + 1 }
      reply.text).execIdx = s.execIdx := hf.2.2.2.1
  have hac : (applyText
      { s with iterations := s.iterations + 1, adapterCalls := s.adapterCalls + 1 }
      reply.text).adapterCalls = s.adapterCalls + 1 := hf.2.1
  obtain ⟨mid0, hm0, hr0⟩ := applyText_log
    { s with iterations := s.iterations + 1, adapterCalls := s.adapterCalls + 1 }
    reply.text
  have hm0' : (applyText
      { s with iterations := s.iterations + 1, adapterCalls := s.adapterCalls + 1 }
      reply.text).log = s.log ++ mid0 := hm0
  have hspec := handleCall_unknown_spec p env
    (applyText
      { s with iterations := s.iterations + 1, adapterCalls := s.adapterCalls + 1 }
      reply.text) fc hunk
  rw [hstep]
  refine ⟨hspec.1,
    ⟨mid0 ++ [mkModelCall fc.name (fc.args.getD [])], ?_, ?_⟩,
    rfl, rfl, strHasSub_unknown_msg fc.name, ?_, ?_, ?_, ?_⟩
  · rw [hspec.2.1, hm0']
    simp
  · intro u hu
    rcases List.mem_append.mp hu with h | h
    · exact hr0 u h
    · simp at h
      rw [h]
      rfl
  · rw [hspec.2.2.1, hei]
  · rw [hspec.2.2.2.1, hp]
  · rw [hspec.2.2.2.2.1, hac]
  · intro fuel
    apply runLoopFuel_of_exit
    rw [hspec.1]
    rfl

/-- C7 witness: a request for the unregistered tool make_coffee in the
filesystem.ts loop breaks out with no prompt and no execution. -/
theorem c7_unknown_tool_witness :
    (stepBody fsLoopParams envUnknownTool (initLoopState [mkUserText "coffee"])).exit
        = some ExitKind.unknownTool
    ∧ (stepBody fsLoopParams envUnknownTool (initLoopState [mkUserText "coffee"])).execIdx = 0
    ∧ (stepBody fsLoopParams envUnknownTool (initLoopState [mkUserText "coffee"])).promptIdx = 0
    ∧ strHasSub ("Unknown tool requested: " ++ "make_coffee") "Unknown tool" = true
    ∧ runLoopFuel fsLoopParams envUnknownTool 9
          (stepBody fsLoopParams envUnknownTool (initLoopState [mkUserText "coffee"]))
        = stepBody fsLoopParams envUnknownTool (initLoopState [mkUserText "coffee"]) := by
  have h := c7_unknown_tool fsLoopParams envUnknownTool
      (initLoopState [mkUserText "coffee"])
      (AiReply.mk none (some (FunctionCallData.mk "make_coffee" (some []))))
      (FunctionCallData.mk "make_coffee" (some []))
      rfl (by decide) rfl rfl (by decide)
  exact ⟨h.1, h.2.2.2.2.2.1, h.2.2.2.2.2.2.1, h.2.2.2.2.1, h.2.2.2.2.2.2.2.2 9⟩

/-- C7 counterexample: the unknown-tool error message produced by the code
is Unknown tool requested: followed by the name; it does not contain the
lowercase text unknown tool, so the claim as stated fails on the letter
case, while the capitalized text Unknown tool does occur. -/
theorem c7_unknown_tool_counterexample :
    (stepBody fsLoopParams envUnknownTool (initLoopState [mkUserText "coffee"])).log.getLast?
        = some (mkToolResp "make_coffee" (unknownToolResult "make_coffee"))
    ∧ unknownToolResult "make_coffee"
        = ToolResult.mk false none (some "Unknown tool requested: make_coffee")
    ∧ strHasSub "Unknown tool requested: make_coffee" "unknown tool" = false
    ∧ strHasSub "Unknown tool requested: make_coffee" "Unknown tool" = true := by
  exact ⟨by decide, by decide, by decide, by decide⟩

/-- C8: a fault thrown by an approved tool execution never escapes the
loop: it is converted into a tool-result turn with success false and the
error Tool function threw error: followed by the message, the turn is
appended, and the body does not break, so the loop goes on to the next
planning iteration; likewise a returned outcome, even one with success
false, never makes the body break by itself. -/
theorem c8_fault_conversion (p : LoopParams) (env : ToolEnv) (s : LoopState)
    (reply : AiReply) (fc : FunctionCallData)
    (hexit : s.exit = none)
    (hadapt : env.adapter s.adapterCalls = Except.ok reply)
    (hfc : reply.functionCall = some fc)
    (hknown : fc.name ∈ toolNames)
    (happr : fc.name ∉ p.risky ∨ env.confirm s.promptIdx = true) :
    (stepBody p env s).exit = none
    ∧ (stepBody p env s).execIdx = s.execIdx + 1
    ∧ (stepBody p env s).iterations = s.iterations + 1
    ∧ (∃ mid : List ConversationTurn,
        (stepBody p env s).log
          = s.log ++ mid ++ [mkToolResp fc.name (execOutcome env s.execIdx)]
        ∧ ∀ u ∈ mid, u.role = Role.model)
    ∧ (∀ msg, env.exec s.execIdx = Except.error msg →
        execOutcome env s.execIdx
          = ToolResult.mk false none (some ("Tool function threw error: " ++ msg)))
    ∧ (∀ r, env.exec s.execIdx = Except.ok r → execOutcome env s.execIdx = r) := by
  have hstep := stepBody_call p env s reply fc hadapt hfc
  have hf := applyText_fields
    { s with iterations := s.iterations + 1, adapterCalls := s.adapterCalls + 1 }
    reply.text
  have hp : (applyText
      { s with iterations := s.iterations + 1, adapterCalls := s.adapterCalls + 1 }
      reply.text).promptIdx = s.promptIdx := hf.2.2.1
  have hei : (applyText
      { s with iterations := s.iterations + 1, adapterCalls := s.adapterCalls + 1 }
      reply.text).execIdx = s.execIdx := hf.2.2.2.1
  have hit : (applyText
      { s with iterations := s.iterations + 1, adapterCalls := s.adapterCalls + 1 }
      reply.text).iterations = s.iterations + 1 := hf.1
  have hexx : (applyText
      { s with iterations := s.iterations + 1, adapterCalls := s.adapterCalls + 1 }
      reply.text).exit = s.exit := hf.2.2.2.2.1
  obtain ⟨mid0, hm0, hr0⟩ := applyText_log
    { s with iterations := s.iterations + 1, adapterCalls := s.adapterCalls + 1 }
    reply.text
  have hm0' : (applyText
      { s with iterations := s.iterations + 1, adapterCalls := s.adapterCalls + 1 }
      reply.text).log = s.log ++ mid0 := hm0
  have happr1 : fc.name ∉ p.risky
      ∨ env.confirm (applyText
          { s with iterations := s.iterations + 1, adapterCalls := s.adapterCalls + 1 }
          reply.text).promptIdx = true := by
    rcases happr with h | h
    · exact Or.inl h
    · exact Or.inr (by rw [hp]; exact h)
  have hspec := handleCall_exec_spec p env
    (applyText
      { s with iterations := s.iterations + 1, adapterCalls := s.adapterCalls + 1 }
      reply.text) fc hknown happr1
  have hcnt := handleCall_counts p env
    (applyText
      { s with iterations := s.iterations + 1, adapterCalls := s.adapterCalls + 1 }
      reply.text) fc
  rw [hstep]
  refine ⟨?_, ?_, ?_, ⟨mid0 ++ [mkModelCall fc.name (fc.args.getD [])], ?_, ?_⟩, ?_, ?_⟩
  · rw [hspec.1, hexx, hexit]
  · rw [hspec.2.2, hei]
  · rw [hcnt.1, hit]
  · rw [hspec.2.1, hm0', hei]
    simp
  · intro u hu
    rcases List.mem_append.mp hu with h | h
    · exact hr0 u h
    · simp at h
      rw [h]
      rfl
  · intro msg hmsg
    unfold execOutcome
    rw [hmsg]
  · intro r hr
    unfold execOutcome
    rw [hr]

/-- C8 witness: a create_directory execution that throws a permission
fault in the filesystem.ts loop is converted to a success false
tool-result and the loop body does not break. -/
theorem c8_fault_conversion_witness :
    (stepBody fsLoopParams envThrow (initLoopState [mkUserText "make x"])).exit = none
    ∧ (stepBody fsLoopParams envThrow (initLoopState [mkUserText "make x"])).execIdx = 1
    ∧ execOutcome envThrow 0
        = ToolResult.mk false none
            (some ("Tool function threw error: " ++ "EACCES: permission denied")) := by
  have h := c8_fault_conversion fsLoopParams envThrow
      (initLoopState [mkUserText "make x"])
      (AiReply.mk none (some (FunctionCallData.mk "create_directory" (some [("path", "x")]))))
      (FunctionCallData.mk "create_directory" (some [("path", "x")]))
      rfl rfl rfl (by decide) (Or.inl (by decide))
  exact ⟨h.1, h.2.1, h.2.2.2.2.1 "EACCES: permission denied" rfl⟩

-- ### Theorem about the read_file tool (claim C10)

/-- C10: a read_file invocation on a readable file succeeds with the file
content as output when the content has at most MAX_READ_LENGTH (5000)
characters and with the first 5000 characters followed by the truncation
marker otherwise; a missing or unreadable file, or a missing path
argument, yields success false with an error message, and no fault
escapes the tool. -/
theorem c10_read_file_contract (fsys : String → Option String) (path : String) :
    (∀ content, path ≠ "" → fsys path = some content →
        content.length ≤ MAX_READ_LENGTH →
          read_file_run fsys path = ToolResult.mk true (some content) none)
    ∧ (∀ content, path ≠ "" → fsys path = some content →
        content.length > MAX_READ_LENGTH →
          read_file_run fsys path
            = ToolResult.mk true
                (some (content.take MAX_READ_LENGTH ++ "\n... (truncated)")) none)
    ∧ (path ≠ "" → fsys path = none →
        read_file_run fsys path
          = ToolResult.mk false none
              (some ("Failed to read file or file not found: " ++ path)))
    ∧ (path = "" → (read_file_run fsys path).success = false
        ∧ (read_file_run fsys path).error.isSome)
    ∧ MAX_READ_LENGTH = 5000 := by
  refine ⟨?_, ?_, ?_, ?_, rfl⟩
  · intro content hne hc hlen
    simp [read_file_run, hne, hc, Nat.not_lt.mpr hlen]
  · intro content hne hc hlen
    simp [read_file_run, hne, hc, hlen]
  · intro hne hc
    simp [read_file_run, hne, hc]
  · intro hemp
    simp [read_file_run, hemp]

/-- C10 witness: reading a short existing file returns its full content
and reading a missing file reports a failure. -/
theorem c10_read_file_contract_witness :
    read_file_run (fun p => if p = "notes.txt" then some "hello" else none) "notes.txt"
        = ToolResult.mk true (some "hello") none
    ∧ read_file_run (fun p => if p = "notes.txt" then some "hello" else none) "missing.txt"
        = ToolResult.mk false none
            (some ("Failed to read file or file not found: " ++ "missing.txt")) := by
  constructor
  · exact (c10_read_file_contract
      (fun p => if p = "notes.txt" then some "hello" else none) "notes.txt").1
      "hello" (by decide) (by decide) (by decide)
  · exact (c10_read_file_contract
      (fun p => if p = "notes.txt" then some "hello" else none) "missing.txt").2.2.1
      (by decide) (by decide)
